import Mathlib

/-!
Verification of the customer-order ETL pipeline
(src/customer_order_etl/main.py) against its specification.

The pipeline operates on an in-memory pandas DataFrame.  We embed the
table as a Lean list of records.  A missing value (NaN / NaT) in a cell
is modelled by `Option.none`; numeric cells are rationals (pandas floats
carry exact decimal literals in this data set, and no claim depends on
float rounding); dates are calendar triples.  Fallible I/O (SQLite,
CSV) is modelled by explicit world states, and the object-identity /
mutation claims by an explicit frame heap.
-/

set_option autoImplicit false

deriving instance DecidableEq for Except

namespace ETL

/-- Calendar date, as produced by pd.to_datetime on the order_date column. -/
structure Date where
  year : Nat
  month : Nat
  day : Nat
  deriving DecidableEq, Repr

/-- Strict chronological order on dates (lexicographic on year, month, day);
this is the order pandas uses when comparing datetime values. -/
def Date.lt (a b : Date) : Bool :=
  if a.year < b.year then true
  else if b.year < a.year then false
  else if a.month < b.month then true
  else if b.month < a.month then false
  else decide (a.day < b.day)

/-- Zero-pad a number to two digits, as strftime %m does. -/
def pad2 (n : Nat) : String :=
  if n < 10 then "0" ++ toString n else toString n

/-- Zero-pad a number to four digits, as strftime %Y does. -/
def pad4 (n : Nat) : String :=
  if n < 10 then "000" ++ toString n
  else if n < 100 then "00" ++ toString n
  else if n < 1000 then "0" ++ toString n
  else toString n

/-- The strftime format string used in transform_data is %Y-%m: the
calendar-month string of a date. -/
def fmtMonth (d : Date) : String :=
  pad4 d.year ++ "-" ++ pad2 d.month

/-- A row of the raw input table (the eight CSV columns); `none` models a
missing value in that cell. -/
structure Row where
  order_id : Option Nat
  customer_id : Option Nat
  product_id : Option Nat
  order_date : Option Date
  quantity : Option Rat
  price_usd : Option Rat
  status : Option String
  delivery_address : Option String
  deriving DecidableEq, Repr

/-- A row after transform_data: the eight input columns plus the two
derived columns total_order_value and order_month. -/
structure TRow where
  order_id : Option Nat
  customer_id : Option Nat
  product_id : Option Nat
  order_date : Option Date
  quantity : Option Rat
  price_usd : Option Rat
  status : Option String
  delivery_address : Option String
  total_order_value : Option Rat
  order_month : Option String
  deriving DecidableEq, Repr

/-- A row after schema_enforcement: the same ten columns, with the field
order fixed to the target schema list customer_orders. -/
structure FRow where
  order_id : Option Nat
  order_date : Option Date
  order_month : Option String
  customer_id : Option Nat
  product_id : Option Nat
  quantity : Option Rat
  price_usd : Option Rat
  total_order_value : Option Rat
  status : Option String
  delivery_address : Option String
  deriving DecidableEq, Repr

/-- True when any cell of the row is missing; pandas isnull marks such
rows, and dropna() removes a row when any of its columns is null. -/
def Row.hasNull (r : Row) : Bool :=
  r.order_id.isNone || r.customer_id.isNone || r.product_id.isNone ||
  r.order_date.isNone || r.quantity.isNone || r.price_usd.isNone ||
  r.status.isNone || r.delivery_address.isNone

/-- Step 1 of validate_data: if any missing values were found, drop every
row that has a missing value (df_validated.dropna()); otherwise the frame
is left as it is. -/
def dropMissing (df : List Row) : List Row :=
  if df.any Row.hasNull then df.filter (fun r => !r.hasNull) else df

/-- The pandas duplicated(subset=[order_id]) test: true when some row's
order_id already occurred earlier in the frame (NaN keys compare equal,
matching pandas). -/
def hasDupAux (seen : List (Option Nat)) : List Row → Bool
  | [] => false
  | r :: rs => r.order_id ∈ seen || hasDupAux (r.order_id :: seen) rs

/-- drop_duplicates(subset=[order_id], keep=first): keep each row whose
order_id has not occurred before it. -/
def dedupAux (seen : List (Option Nat)) : List Row → List Row
  | [] => []
  | r :: rs =>
    if r.order_id ∈ seen then dedupAux seen rs
    else r :: dedupAux (r.order_id :: seen) rs

/-- Step 2 of validate_data: if duplicates.any(), remove later rows whose
order_id duplicates an earlier one, keeping the first occurrence. -/
def dropDupOrders (df : List Row) : List Row :=
  if hasDupAux [] df then dedupAux [] df else df

/-- The boolean mask quantity smaller than 0; on a missing value the pandas
comparison NaN less-than 0 is False. -/
def qtyLt0 (r : Row) : Bool :=
  match r.quantity with
  | some q => decide (q < 0)
  | none => false

/-- The boolean mask quantity at least 0; False on a missing value. -/
def qtyGe0 (r : Row) : Bool :=
  match r.quantity with
  | some q => decide (0 ≤ q)
  | none => false

/-- The boolean mask price_usd smaller than 0; False on a missing value. -/
def priceLt0 (r : Row) : Bool :=
  match r.price_usd with
  | some p => decide (p < 0)
  | none => false

/-- The boolean mask price_usd at least 0; False on a missing value. -/
def priceGe0 (r : Row) : Bool :=
  match r.price_usd with
  | some p => decide (0 ≤ p)
  | none => false

/-- Step 3 of validate_data: if there are rows with negative quantities,
keep only the rows whose quantity is at least 0. -/
def dropNegQty (df : List Row) : List Row :=
  if 0 < (df.filter qtyLt0).length then df.filter qtyGe0 else df

/-- Step 4 of validate_data: if there are rows with negative prices, keep
only the rows whose price_usd is at least 0. -/
def dropNegPrice (df : List Row) : List Row :=
  if 0 < (df.filter priceLt0).length then df.filter priceGe0 else df

/-- The valid_status whitelist of validate_data. -/
def valid_status : List String := ["completed", "pending", "cancelled"]

/-- Lower-casing of a string, as str.lower() does (character-wise, which
is what it amounts to on this ASCII data). -/
def strLower (s : String) : String :=
  String.mk (s.data.map Char.toLower)

/-- The mask status.str.lower().isin(valid_status): the lower-cased status
is one of the whitelisted values; a missing status yields False (so the
row counts as invalid). -/
def statusOk (r : Row) : Bool :=
  match r.status with
  | some s => valid_status.contains (strLower s)
  | none => false

/-- Step 5 of validate_data: if any row has an invalid status, keep only
the rows whose lower-cased status is whitelisted. -/
def dropBadStatus (df : List Row) : List Row :=
  if df.any (fun r => !statusOk r) then df.filter statusOk else df

/-- validate_data: drop rows with missing values (when any exist), remove
duplicate order_ids keeping the first occurrence, filter out negative
quantities, negative prices, and invalid statuses, in that order. -/
def validate_data (df : List Row) : List Row :=
  dropBadStatus (dropNegPrice (dropNegQty (dropDupOrders (dropMissing df))))

/-- The per-row work of transform_data: total_order_value is quantity
times price_usd (NaN propagates through the product), order_date passes
through pd.to_datetime (our dates are already parsed), order_month is
the %Y-%m rendering of the (possibly missing) order_date, and the
to_numeric coercions leave the already-numeric cells unchanged. -/
def toTRow (r : Row) : TRow :=
  { order_id := r.order_id
    customer_id := r.customer_id
    product_id := r.product_id
    order_date := r.order_date
    quantity := r.quantity
    price_usd := r.price_usd
    status := r.status
    delivery_address := r.delivery_address
    total_order_value :=
      match r.quantity, r.price_usd with
      | some q, some p => some (q * p)
      | _, _ => none
    order_month := r.order_date.map fmtMonth }

/-- transform_data: add the derived columns, then dropna(subset=[quantity,
price_usd]) removes the rows whose quantity or price is missing. -/
def transform_data (df : List Row) : List TRow :=
  (df.map toTRow).filter (fun t => t.quantity.isSome && t.price_usd.isSome)

/-- The target schema column list of schema_enforcement. -/
def customer_orders : List String :=
  ["order_id", "order_date", "order_month", "customer_id", "product_id",
   "quantity", "price_usd", "total_order_value", "status", "delivery_address"]

/-- The row-level effect of the projection df_transformed[customer_orders]:
every target column is kept, in the target order. -/
def toFRow (t : TRow) : FRow :=
  { order_id := t.order_id
    order_date := t.order_date
    order_month := t.order_month
    customer_id := t.customer_id
    product_id := t.product_id
    quantity := t.quantity
    price_usd := t.price_usd
    total_order_value := t.total_order_value
    status := t.status
    delivery_address := t.delivery_address }

/-- schema_enforcement on the typed table: project every row to the fixed
column set and order. -/
def schema_enforcement (df : List TRow) : List FRow :=
  df.map toFRow

/-- The mask order_date strictly greater than last_load_date used by
incremental_loading; a missing date (NaT) compares False. -/
def keepAfter (d : Date) (r : FRow) : Bool :=
  match r.order_date with
  | some od => Date.lt d od
  | none => false

/-- incremental_loading: with a (truthy) last_load_date, keep only the
rows dated strictly after it; with none, return the frame unchanged
(full load). -/
def incremental_loading (df : List FRow) (last_load_date : Option Date) : List FRow :=
  match last_load_date with
  | some d => df.filter (keepAfter d)
  | none => df

/-!  Persistence.  load_to_database and save_backup_csv perform real I/O;
we model the reachable state (the customer_orders table of the SQLite
file, the backup CSV file) together with fault switches saying whether
the underlying library call raises, and we record the log messages each
function emits.  A raised exception is an `Except.error` carrying the
exception text. -/

/-- State of the SQLite side: the current contents of the customer_orders
table (none when the table does not exist), and fault switches for the
two fallible calls inside load_to_database (`to_sql`, and the COUNT
verification query). -/
structure DbWorld where
  customer_orders_table : Option (List FRow)
  toSqlFail : Option String
  countFail : Option String
  deriving DecidableEq, Repr

/-- Result of a load_to_database call: the database state after the call,
the log lines emitted, and either normal return or the re-raised
exception. -/
structure DbOutcome where
  world : DbWorld
  log : List String
  result : Except String Unit
  deriving DecidableEq, Repr

/-- The log line of the except-branch of load_to_database. -/
def dbFailMsg (e : String) : String :=
  "Failed to load data to database: " ++ e

/-- load_to_database: connect, write the frame with to_sql(if_exists =
replace) — which discards any previous contents of customer_orders and
stores exactly the given rows — then run the COUNT verification query.
Any exception is logged and re-raised. -/
def load_to_database (df : List FRow) (w : DbWorld) : DbOutcome :=
  match w.toSqlFail with
  | some e =>
    { world := w
      log := ["loading data into sqlite database", dbFailMsg e]
      result := Except.error e }
  | none =>
    let w1 : DbWorld := { w with customer_orders_table := some df }
    match w.countFail with
    | some e =>
      { world := w1
        log := ["loading data into sqlite database",
                "data successfully loaded into database: processed_orders.db",
                dbFailMsg e]
        result := Except.error e }
    | none =>
      { world := w1
        log := ["loading data into sqlite database",
                "data successfully loaded into database: processed_orders.db",
                "Verification: " ++ toString df.length ++ " rows found in database"]
        result := Except.ok () }

/-- State of the backup-CSV side: the file contents (none when the file
does not exist) and a fault switch for the to_csv call. -/
structure CsvWorld where
  file : Option (List FRow)
  writeFail : Option String
  deriving DecidableEq, Repr

/-- Result of a save_backup_csv call: the file state, the log lines, and
either the returned output filename or the re-raised exception. -/
structure CsvOutcome where
  world : CsvWorld
  log : List String
  result : Except String String
  deriving DecidableEq, Repr

/-- The log line of the except-branch of save_backup_csv. -/
def csvFailMsg (e : String) : String :=
  "Failed to save CSV: " ++ e

/-- save_backup_csv: write the frame with to_csv and return the output
filename; an exception is logged and re-raised. -/
def save_backup_csv (df : List FRow) (w : CsvWorld) : CsvOutcome :=
  match w.writeFail with
  | some e =>
    { world := w
      log := [csvFailMsg e]
      result := Except.error e }
  | none =>
    { world := { w with file := some df }
      log := ["Backup CSV saved to processed_orders.csv"]
      result := Except.ok "processed_orders.csv" }

/-- The observable world of the whole pipeline: the parsed contents of the
input CSV (none when the file is missing), the SQLite state, the backup
CSV state, and the Parquet backup. -/
structure World where
  datasetCsv : Option (List Row)
  dbw : DbWorld
  csvw : CsvWorld
  parquet : Option (List FRow)
  deriving DecidableEq, Repr

/-- loading_data: read the input CSV.  On FileNotFoundError the error is
logged and exit() terminates the process, modelled as `Except.error ()`;
otherwise the parsed table is returned. -/
def loading_data (w : World) : Except Unit (List Row) :=
  match w.datasetCsv with
  | some t => Except.ok t
  | none => Except.error ()

/-- The hardcoded watermark last_run = 2022-12-01 of main. -/
def last_run : Date := { year := 2022, month := 12, day := 1 }

/-- main: run the stages in order over the world.  exit() in loading_data
(missing file) stops the run before any transformation or output; a
persistence failure stops the run at that point (the exception is logged
as critical and re-raised).  The Bool records whether the pipeline
completed; verify_csv only reads the CSV back and logs, so it does not
change the world. -/
def main_run (w : World) : World × Bool :=
  match w.datasetCsv with
  | none => (w, false)
  | some df_raw =>
    let df_validated := validate_data df_raw
    let df_transformed := transform_data df_validated
    let df_final := schema_enforcement df_transformed
    let df_incremental := incremental_loading df_final (some last_run)
    let o1 := load_to_database df_incremental w.dbw
    match o1.result with
    | Except.error _ => ({ w with dbw := o1.world }, false)
    | Except.ok _ =>
      let o2 := save_backup_csv df_incremental w.csvw
      match o2.result with
      | Except.error _ => ({ w with dbw := o1.world, csvw := o2.world }, false)
      | Except.ok _ =>
        ({ w with dbw := o1.world, csvw := o2.world, parquet := some df_incremental }, true)

/-!  Object identity.  To talk about mutation of the argument frame we
replay each stage over an explicit heap of frames: a frame handle is a
natural number, `mem` gives each handle's contents, and `next` is the
first never-used handle.  df.copy() and every pandas call returning a
fresh DataFrame allocate a new handle; an inplace=True call writes
through an existing handle.  A conditional rebinding such as the guarded
dropna of validate_data is modelled as an unconditional allocation of
the (possibly unchanged) value, which only over-approximates the set of
allocations and leaves every previously existing frame untouched exactly
when the Python code does. -/

/-- A heap of DataFrame objects with element rows of type a. -/
structure Heap (a : Type) where
  mem : Nat → List a
  next : Nat

/-- Allocate a fresh frame holding the given rows; returns the new heap
and the fresh handle. -/
def Heap.alloc {a : Type} (h : Heap a) (t : List a) : Heap a × Nat :=
  ({ mem := fun j => if j = h.next then t else h.mem j, next := h.next + 1 }, h.next)

/-- Overwrite the frame behind an existing handle (an inplace pandas
operation). -/
def Heap.write {a : Type} (h : Heap a) (i : Nat) (t : List a) : Heap a :=
  { mem := fun j => if j = i then t else h.mem j, next := h.next }

/-- validate_data over the heap: df.copy() allocates, and each of the five
validation steps rebinds df_validated to a freshly returned frame; the
argument frame is only read (df.info(), df.describe() and the masks). -/
def validate_data_heap (h : Heap Row) (df : Nat) : Heap Row × Nat :=
  let p1 := h.alloc (h.mem df)
  let p2 := p1.1.alloc (dropMissing (p1.1.mem p1.2))
  let p3 := p2.1.alloc (dropDupOrders (p2.1.mem p2.2))
  let p4 := p3.1.alloc (dropNegQty (p3.1.mem p3.2))
  let p5 := p4.1.alloc (dropNegPrice (p4.1.mem p4.2))
  let p6 := p5.1.alloc (dropBadStatus (p5.1.mem p5.2))
  (p6.1, p6.2)

/-- The copy made at the top of transform_data, before any derived column
exists: the ten-column view of an eight-column row. -/
def initTRow (r : Row) : TRow :=
  { order_id := r.order_id
    customer_id := r.customer_id
    product_id := r.product_id
    order_date := r.order_date
    quantity := r.quantity
    price_usd := r.price_usd
    status := r.status
    delivery_address := r.delivery_address
    total_order_value := none
    order_month := none }

/-- The column assignment total_order_value = quantity * price_usd. -/
def setTotal (u : TRow) : TRow :=
  { u with total_order_value :=
      match u.quantity, u.price_usd with
      | some q, some p => some (q * p)
      | _, _ => none }

/-- The column assignment order_date = pd.to_datetime(order_date); our
dates are already parsed. -/
def setDatetime (u : TRow) : TRow :=
  { u with order_date := u.order_date }

/-- The column assignment order_month = order_date.dt.strftime(%Y-%m). -/
def setMonth (u : TRow) : TRow :=
  { u with order_month := u.order_date.map fmtMonth }

/-- The two pd.to_numeric(errors=coerce) assignments; already-numeric (or
missing) cells are unchanged. -/
def coerceNums (u : TRow) : TRow :=
  { u with quantity := u.quantity, price_usd := u.price_usd }

/-- transform_data over heaps: df.copy() allocates a fresh frame in the
ten-column heap, the four column assignments and the inplace dropna all
write through that fresh handle, and the argument's heap is returned
untouched. -/
def transform_data_heap (hr : Heap Row) (ht : Heap TRow) (df : Nat) :
    Heap Row × Heap TRow × Nat :=
  let p1 := ht.alloc ((hr.mem df).map initTRow)
  let h2 := p1.1.write p1.2 ((p1.1.mem p1.2).map setTotal)
  let h3 := h2.write p1.2 ((h2.mem p1.2).map setDatetime)
  let h4 := h3.write p1.2 ((h3.mem p1.2).map setMonth)
  let h5 := h4.write p1.2 ((h4.mem p1.2).map coerceNums)
  let h6 := h5.write p1.2 ((h5.mem p1.2).filter (fun t => t.quantity.isSome && t.price_usd.isSome))
  (hr, h6, p1.2)

/-- schema_enforcement over heaps: the projection df_transformed[
customer_orders] returns a fresh frame; the argument is only read. -/
def schema_enforcement_heap (ht : Heap TRow) (hf : Heap FRow) (df : Nat) :
    Heap TRow × Heap FRow × Nat :=
  let p1 := hf.alloc ((ht.mem df).map toFRow)
  (ht, p1.1, p1.2)

/-- incremental_loading over the heap: with a cutoff the boolean-mask
selection returns a fresh frame; without one the function returns the
argument frame itself. -/
def incremental_loading_heap (hf : Heap FRow) (df : Nat) (last_load_date : Option Date) :
    Heap FRow × Nat :=
  match last_load_date with
  | some d =>
    let p1 := hf.alloc ((hf.mem df).filter (keepAfter d))
    (p1.1, p1.2)
  | none => (hf, df)

/-!  Column-level view.  Claim C7 talks about the set and order of the
columns of the frame, which the typed rows above fix by construction; so
we additionally embed schema_enforcement over an untyped DataFrame whose
rows are lists of cells aligned with a column-name list, exactly as a
pandas frame stores them. -/

/-- An untyped cell value. -/
inductive Value where
  | num (q : Rat)
  | str (s : String)
  | date (d : Date)
  | null
  deriving DecidableEq, Repr

/-- An untyped DataFrame: a column-name list and rows of cells aligned
with it. -/
structure DataFrame where
  columns : List String
  rows : List (List Value)
  deriving DecidableEq, Repr

/-- Index of the first occurrence of a column name in a column list. -/
def colIndex : List String → String → Option Nat
  | [], _ => none
  | c :: cs, t => if c = t then some 0 else (colIndex cs t).map (· + 1)

/-- The cell of a row under a given column name, relative to a column
list. -/
def cellAt (cols : List String) (row : List Value) (c : String) : Option Value :=
  (colIndex cols c).bind (fun i => row.get? i)

/-- schema_enforcement on the untyped frame: df_transformed[
customer_orders] projects every row onto the target columns in the
target order; pandas raises a KeyError when a requested column is
absent, modelled as none. -/
def schema_enforcementDF (df : DataFrame) : Option DataFrame :=
  if ∀ c ∈ customer_orders, c ∈ df.columns then
    some { columns := customer_orders
           rows := df.rows.map (fun row =>
             customer_orders.map (fun c => (cellAt df.columns row c).getD Value.null)) }
  else none

/-- Stated from the claim: a row is kept by an incremental load exactly
when its order_date is strictly after the cutoff date (rows dated at the
cutoff are dropped). -/
def specAfterCutoff (cutoff : Date) (r : FRow) : Bool :=
  match r.order_date with
  | some od => Date.lt cutoff od
  | none => false

/-!  Concrete data used to evaluate the development on closed inputs. -/

/-- A raw input row with no missing values; the order_id, quantity, price
and status are the varying parts. -/
def mkRow (oid : Nat) (q p : Rat) (st : String) : Row :=
  { order_id := some oid
    customer_id := some 7
    product_id := some 3
    order_date := some { year := 2023, month := 1, day := 2 }
    quantity := some q
    price_usd := some p
    status := some st
    delivery_address := some "12 Baker Street" }

/-- First occurrence of order_id 1, with a negative quantity. -/
def c3negFirst : Row := mkRow 1 (-1) 5 "completed"

/-- Second occurrence of order_id 1, fully valid. -/
def c3dupSecond : Row := mkRow 1 2 5 "completed"

/-- A valid row whose quantity is exactly zero. -/
def c4zeroQty : Row := mkRow 2 0 5 "completed"

/-- A valid row whose status is upper-case. -/
def c5capsStatus : Row := mkRow 3 1 5 "COMPLETED"

/-- A fully valid row. -/
def okRow : Row := mkRow 4 1 5 "completed"

/-- A final-schema row dated on the given day. -/
def mkFRow (oid : Nat) (d : Date) : FRow :=
  { order_id := some oid
    order_date := some d
    order_month := some (fmtMonth d)
    customer_id := some 7
    product_id := some 3
    quantity := some 1
    price_usd := some 5
    total_order_value := some 5
    status := some "completed"
    delivery_address := some "12 Baker Street" }

/-- A row dated after the hardcoded watermark. -/
def frAfter : FRow := mkFRow 1 { year := 2023, month := 1, day := 2 }

/-- A row dated before the hardcoded watermark. -/
def frBefore : FRow := mkFRow 2 { year := 2022, month := 11, day := 30 }

/-- A row dated exactly on the hardcoded watermark. -/
def frAtCutoff : FRow := mkFRow 3 last_run

/-- A database world with an empty database and no faults. -/
def dbw0 : DbWorld := { customer_orders_table := none, toSqlFail := none, countFail := none }

/-- A database world in which to_sql raises. -/
def dbwToSqlFail : DbWorld :=
  { customer_orders_table := none, toSqlFail := some "disk full", countFail := none }

/-- A database world in which the COUNT verification query raises. -/
def dbwCountFail : DbWorld :=
  { customer_orders_table := none, toSqlFail := none, countFail := some "no such table" }

/-- A CSV world with no file and no faults. -/
def csvw0 : CsvWorld := { file := none, writeFail := none }

/-- A CSV world in which to_csv raises. -/
def csvwFail : CsvWorld := { file := none, writeFail := some "permission denied" }

/-- A pipeline world whose input CSV is missing. -/
def w9missing : World := { datasetCsv := none, dbw := dbw0, csvw := csvw0, parquet := none }

/-- A pipeline world whose input CSV holds one valid row. -/
def w9present : World := { datasetCsv := some [okRow], dbw := dbw0, csvw := csvw0, parquet := none }

/-- A one-frame heap of raw rows: handle 0 is live, handle 1 is the next
fresh one. -/
def hr0 : Heap Row := { mem := fun j => if j = 0 then [okRow] else [], next := 1 }

/-- A one-frame heap of transformed rows. -/
def ht0 : Heap TRow := { mem := fun j => if j = 0 then [toTRow okRow] else [], next := 1 }

/-- A one-frame heap of final-schema rows. -/
def hf0 : Heap FRow := { mem := fun j => if j = 0 then [frAfter] else [], next := 1 }

/-- An untyped frame carrying the ten target columns plus one extra
column, with one row. -/
def dfW : DataFrame :=
  { columns := customer_orders ++ ["extra"]
    rows := [[Value.num 1, Value.date { year := 2023, month := 1, day := 2 },
              Value.str "2023-01", Value.num 7, Value.num 3, Value.num 2,
              Value.num 5, Value.num 10, Value.str "completed",
              Value.str "12 Baker Street", Value.num 99]] }

/-!  Helper lemmas about the validation steps. -/

/-- The order_id values of a list of rows are pairwise distinct. -/
def UniqueIds {a : Type} (key : a → Option Nat) (l : List a) : Prop :=
  l.Pairwise (fun x y => key x ≠ key y)

theorem dropMissing_sublist (df : List Row) : (dropMissing df).Sublist df := by
  unfold dropMissing
  split
  · exact List.filter_sublist df
  · exact List.Sublist.refl df

theorem mem_dropMissing {df : List Row} {r : Row} (h : r ∈ dropMissing df) :
    r ∈ df ∧ r.hasNull = false := by
  unfold dropMissing at h
  split at h
  · have := List.mem_filter.mp h
    exact ⟨this.1, by simpa using this.2⟩
  · rename_i hany
    refine ⟨h, ?_⟩
    by_contra hnull
    exact hany (List.any_eq_true.mpr ⟨r, h, by simpa using hnull⟩)

theorem dedupAux_sublist (l : List Row) : ∀ seen, (dedupAux seen l).Sublist l := by
  induction l with
  | nil => intro seen; simp [dedupAux]
  | cons a tl ih =>
    intro seen
    unfold dedupAux
    split
    · exact (ih seen).trans (List.sublist_cons_self a tl)
    · exact List.Sublist.cons₂ a (ih (a.order_id :: seen))

theorem dedupAux_unique (l : List Row) : ∀ seen,
    UniqueIds Row.order_id (dedupAux seen l) ∧
    ∀ r ∈ dedupAux seen l, r.order_id ∉ seen := by
  induction l with
  | nil => intro seen; exact ⟨List.Pairwise.nil, by simp [dedupAux]⟩
  | cons a tl ih =>
    intro seen
    unfold dedupAux
    split
    · exact ih seen
    · rename_i hnot
      obtain ⟨hu, hseen⟩ := ih (a.order_id :: seen)
      constructor
      · refine List.pairwise_cons.mpr ⟨?_, hu⟩
        intro b hb
        have := hseen b hb
        intro heq
        exact this (by rw [← heq]; exact List.mem_cons_self _ _)
      · intro r hr
        rcases List.mem_cons.mp hr with h | h
        · subst h; exact hnot
        · exact fun hs => hseen r h (List.mem_cons_of_mem _ hs)

theorem hasDupAux_false_unique (l : List Row) : ∀ seen, hasDupAux seen l = false →
    UniqueIds Row.order_id l ∧ ∀ r ∈ l, r.order_id ∉ seen := by
  induction l with
  | nil => intro seen _; exact ⟨List.Pairwise.nil, by simp⟩
  | cons a tl ih =>
    intro seen h
    unfold hasDupAux at h
    rw [Bool.or_eq_false_iff] at h
    obtain ⟨h1, h2⟩ := h
    obtain ⟨hu, hseen⟩ := ih (a.order_id :: seen) h2
    constructor
    · refine List.pairwise_cons.mpr ⟨?_, hu⟩
      intro b hb heq
      exact hseen b hb (by rw [← heq]; exact List.mem_cons_self _ _)
    · intro r hr
      rcases List.mem_cons.mp hr with h | h
      · subst h; simpa using h1
      · exact fun hs => hseen r h (List.mem_cons_of_mem _ hs)

theorem dropDupOrders_sublist (df : List Row) : (dropDupOrders df).Sublist df := by
  unfold dropDupOrders
  split
  · exact dedupAux_sublist df []
  · exact List.Sublist.refl df

theorem dropDupOrders_unique (df : List Row) :
    UniqueIds Row.order_id (dropDupOrders df) := by
  unfold dropDupOrders
  split
  · exact (dedupAux_unique df []).1
  · rename_i h
    exact (hasDupAux_false_unique df [] (by simpa using h)).1

/-- The first row of the frame carrying a given order_id survives the
duplicate-removal pass. -/
theorem first_mem_dedupAux (l : List Row) : ∀ (seen : List (Option Nat)) (k : Option Nat),
    k ∉ seen → (∃ x ∈ l, x.order_id = k) →
    ∃ fst, l.find? (fun x => decide (x.order_id = k)) = some fst ∧
      fst ∈ dedupAux seen l ∧ fst.order_id = k := by
  induction l with
  | nil => intro seen k _ hex; simp at hex
  | cons a tl ih =>
    intro seen k hk hex
    by_cases ha : a.order_id = k
    · refine ⟨a, ?_, ?_, ha⟩
      · simp [List.find?, ha]
      · unfold dedupAux
        split
        · rename_i hmem; exact absurd (ha ▸ hmem) hk
        · exact List.mem_cons_self _ _
    · have hex' : ∃ x ∈ tl, x.order_id = k := by
        rcases hex with ⟨x, hx, hxk⟩
        rcases List.mem_cons.mp hx with h | h
        · subst h; exact absurd hxk ha
        · exact ⟨x, h, hxk⟩
      unfold dedupAux
      split
      · obtain ⟨fst, hf, hfm, hfk⟩ := ih seen k hk hex'
        exact ⟨fst, by simp [List.find?, ha, hf], hfm, hfk⟩
      · have hk' : k ∉ a.order_id :: seen := by
          intro hmem
          rcases List.mem_cons.mp hmem with h | h
          · exact ha h.symm
          · exact hk h
        obtain ⟨fst, hf, hfm, hfk⟩ := ih (a.order_id :: seen) k hk' hex'
        exact ⟨fst, by simp [List.find?, ha, hf], List.mem_cons_of_mem _ hfm, hfk⟩

theorem dropNegQty_sublist (df : List Row) : (dropNegQty df).Sublist df := by
  unfold dropNegQty
  split
  · exact List.filter_sublist df
  · exact List.Sublist.refl df

theorem dropNegPrice_sublist (df : List Row) : (dropNegPrice df).Sublist df := by
  unfold dropNegPrice
  split
  · exact List.filter_sublist df
  · exact List.Sublist.refl df

theorem dropBadStatus_sublist (df : List Row) : (dropBadStatus df).Sublist df := by
  unfold dropBadStatus
  split
  · exact List.filter_sublist df
  · exact List.Sublist.refl df

theorem validate_sublist (df : List Row) : (validate_data df).Sublist df := by
  unfold validate_data
  exact ((((dropBadStatus_sublist _).trans (dropNegPrice_sublist _)).trans
    (dropNegQty_sublist _)).trans (dropDupOrders_sublist _)).trans (dropMissing_sublist df)

theorem mem_dropNegQty {df : List Row} {r : Row} (h : r ∈ dropNegQty df) :
    r ∈ df ∧ (qtyGe0 r = true ∨ r.quantity = none) := by
  unfold dropNegQty at h
  split at h
  · have := List.mem_filter.mp h
    exact ⟨this.1, Or.inl this.2⟩
  · rename_i hlen
    refine ⟨h, ?_⟩
    have hnone : df.filter qtyLt0 = [] := by
      cases hfe : df.filter qtyLt0 with
      | nil => rfl
      | cons x xs => rw [hfe] at hlen; simp at hlen
    have hr : qtyLt0 r = false := by
      by_contra hc
      have : r ∈ df.filter qtyLt0 := List.mem_filter.mpr ⟨h, by simpa using hc⟩
      rw [hnone] at this
      simp at this
    unfold qtyLt0 at hr
    unfold qtyGe0
    cases hq : r.quantity with
    | none => exact Or.inr rfl
    | some q =>
      rw [hq] at hr
      simp only [decide_eq_false_iff_not, not_lt] at hr
      exact Or.inl (by simp [hr])

theorem mem_dropNegPrice {df : List Row} {r : Row} (h : r ∈ dropNegPrice df) :
    r ∈ df ∧ (priceGe0 r = true ∨ r.price_usd = none) := by
  unfold dropNegPrice at h
  split at h
  · have := List.mem_filter.mp h
    exact ⟨this.1, Or.inl this.2⟩
  · rename_i hlen
    refine ⟨h, ?_⟩
    have hnone : df.filter priceLt0 = [] := by
      cases hfe : df.filter priceLt0 with
      | nil => rfl
      | cons x xs => rw [hfe] at hlen; simp at hlen
    have hr : priceLt0 r = false := by
      by_contra hc
      have : r ∈ df.filter priceLt0 := List.mem_filter.mpr ⟨h, by simpa using hc⟩
      rw [hnone] at this
      simp at this
    unfold priceLt0 at hr
    unfold priceGe0
    cases hq : r.price_usd with
    | none => exact Or.inr rfl
    | some p =>
      rw [hq] at hr
      simp only [decide_eq_false_iff_not, not_lt] at hr
      exact Or.inl (by simp [hr])

theorem mem_dropBadStatus {df : List Row} {r : Row} (h : r ∈ dropBadStatus df) :
    r ∈ df ∧ statusOk r = true := by
  unfold dropBadStatus at h
  split at h
  · have := List.mem_filter.mp h
    exact ⟨this.1, this.2⟩
  · rename_i hany
    refine ⟨h, ?_⟩
    by_contra hc
    exact hany (List.any_eq_true.mpr ⟨r, h, by simpa using hc⟩)

theorem date_lt_self_false (d : Date) : Date.lt d d = false := by
  unfold Date.lt
  simp

/-!  The claims. -/

/-- C1: with a provided cutoff date, incremental_loading returns exactly
the sublist of rows dated strictly after the cutoff (so a row dated at
the cutoff is never kept), in their original order; with no cutoff it
returns the input unchanged. -/
theorem claim_C1 (df : List FRow) (d : Date) :
    incremental_loading df none = df
    ∧ incremental_loading df (some d) = df.filter (specAfterCutoff d)
    ∧ ∀ r : FRow, r.order_date = some d → specAfterCutoff d r = false := by
  refine ⟨rfl, rfl, ?_⟩
  intro r h
  unfold specAfterCutoff
  rw [h]
  exact date_lt_self_false d

/-- C1 witness: a row dated exactly on the watermark is not kept. -/
theorem claim_C1_witness : specAfterCutoff last_run frAtCutoff = false :=
  (claim_C1 [] last_run).2.2 frAtCutoff rfl

/-- C3 as stated is false: with two rows sharing order_id 1 where the
first has a negative quantity, validate_data returns the empty table, so
the first occurrence is not kept. -/
theorem claim_C3_counterexample :
    c3negFirst.order_id = c3dupSecond.order_id
    ∧ c3negFirst ∈ [c3negFirst, c3dupSecond]
    ∧ validate_data [c3negFirst, c3dupSecond] = [] := by
  refine ⟨rfl, ?_, by decide⟩
  exact List.mem_cons_self _ _

/-- C3 amended: after validate_data the order_id values are pairwise
distinct; the output is a sublist of the input; at the duplicate-removal
step, for every row (surviving the missing-value drop) the first row of
the frame with its order_id is the one that survives into
dropDupOrders — though that survivor can still be removed by the later
quantity, price and status filters; and transform_data,
schema_enforcement and incremental_loading each preserve pairwise
distinctness of order_id. -/
theorem claim_C3 (df : List Row) :
    UniqueIds Row.order_id (validate_data df)
    ∧ (validate_data df).Sublist df
    ∧ (∀ r ∈ dropMissing df, ∃ fst,
        (dropMissing df).find? (fun x => decide (x.order_id = r.order_id)) = some fst
        ∧ fst ∈ dropDupOrders (dropMissing df))
    ∧ (∀ l : List Row, UniqueIds Row.order_id l → UniqueIds TRow.order_id (transform_data l))
    ∧ (∀ l : List TRow, UniqueIds TRow.order_id l → UniqueIds FRow.order_id (schema_enforcement l))
    ∧ (∀ (l : List FRow) (c : Option Date), UniqueIds FRow.order_id l →
        UniqueIds FRow.order_id (incremental_loading l c)) := by
  refine ⟨?_, validate_sublist df, ?_, ?_, ?_, ?_⟩
  · have sub : (validate_data df).Sublist (dropDupOrders (dropMissing df)) := by
      unfold validate_data
      exact ((dropBadStatus_sublist _).trans (dropNegPrice_sublist _)).trans (dropNegQty_sublist _)
    exact (dropDupOrders_unique (dropMissing df)).sublist sub
  · intro r hr
    obtain ⟨fst, hfind, hmem, -⟩ :=
      first_mem_dedupAux (dropMissing df) [] r.order_id (by simp) ⟨r, hr, rfl⟩
    refine ⟨fst, hfind, ?_⟩
    unfold dropDupOrders
    split
    · exact hmem
    · exact (dedupAux_sublist _ []).subset hmem
  · intro l hu
    unfold transform_data
    have hmap : UniqueIds TRow.order_id (l.map toTRow) := by
      unfold UniqueIds
      rw [List.pairwise_map]
      exact hu
    exact hmap.sublist (List.filter_sublist _)
  · intro l hu
    unfold schema_enforcement UniqueIds
    rw [List.pairwise_map]
    exact hu
  · intro l c hu
    unfold incremental_loading
    cases c with
    | some d => exact hu.sublist (List.filter_sublist _)
    | none => exact hu

/-- C3 witness: on the duplicate-carrying input the amended claim's parts
evaluate as expected. -/
theorem claim_C3_witness :
    UniqueIds Row.order_id (validate_data [c3negFirst, c3dupSecond])
    ∧ (∃ fst, (dropMissing [c3negFirst, c3dupSecond]).find?
          (fun x => decide (x.order_id = c3negFirst.order_id)) = some fst
        ∧ fst ∈ dropDupOrders (dropMissing [c3negFirst, c3dupSecond]))
    ∧ UniqueIds TRow.order_id (transform_data [okRow]) :=
  ⟨(claim_C3 [c3negFirst, c3dupSecond]).1,
   (claim_C3 [c3negFirst, c3dupSecond]).2.2.1 c3negFirst (by decide),
   (claim_C3 [okRow]).2.2.2.1 [okRow] (by simp [UniqueIds])⟩

/-- C4 as stated is false: a row whose quantity is exactly zero survives
validate_data, so the returned quantities are not all strictly
positive. -/
theorem claim_C4_counterexample :
    validate_data [c4zeroQty] = [c4zeroQty]
    ∧ c4zeroQty.quantity = some 0
    ∧ ¬((0 : Rat) < 0) := by
  refine ⟨by decide, rfl, by decide⟩

/-- C4 amended: every row returned by validate_data has a present,
non-negative quantity and a present, non-negative price_usd (the filters
keep zero). -/
theorem claim_C4 (df : List Row) : ∀ r ∈ validate_data df,
    (∃ q, r.quantity = some q ∧ 0 ≤ q) ∧ (∃ p, r.price_usd = some p ∧ 0 ≤ p) := by
  intro r hr
  unfold validate_data at hr
  have h1 := mem_dropBadStatus hr
  have h2 := mem_dropNegPrice h1.1
  have h3 := mem_dropNegQty h2.1
  have h4 : r ∈ dropMissing df := (dropDupOrders_sublist _).subset h3.1
  have hnull := (mem_dropMissing h4).2
  constructor
  · rcases h3.2 with hge | hnone
    · unfold qtyGe0 at hge
      cases hq : r.quantity with
      | none => rw [hq] at hge; simp at hge
      | some q =>
        rw [hq] at hge
        simp only [decide_eq_true_eq] at hge
        exact ⟨q, rfl, hge⟩
    · exfalso
      simp [Row.hasNull, hnone] at hnull
  · rcases h2.2 with hge | hnone
    · unfold priceGe0 at hge
      cases hp : r.price_usd with
      | none => rw [hp] at hge; simp at hge
      | some p =>
        rw [hp] at hge
        simp only [decide_eq_true_eq] at hge
        exact ⟨p, rfl, hge⟩
    · exfalso
      simp [Row.hasNull, hnone] at hnull

/-- C4 witness: the fully valid row is returned with non-negative
quantity and price. -/
theorem claim_C4_witness :
    (∃ q, okRow.quantity = some q ∧ 0 ≤ q) ∧ (∃ p, okRow.price_usd = some p ∧ 0 ≤ p) :=
  claim_C4 [okRow] okRow (by decide)

/-- C5 as stated is false: the status comparison lower-cases before
testing membership, so a row whose status is the string COMPLETED — not
one of the three enum values — survives validate_data unchanged. -/
theorem claim_C5_counterexample :
    validate_data [c5capsStatus] = [c5capsStatus]
    ∧ c5capsStatus.status = some "COMPLETED"
    ∧ "COMPLETED" ∉ valid_status := by
  refine ⟨by decide, rfl, by decide⟩

/-- C5 amended: every row returned by validate_data has a present status
whose lower-cased form is one of completed, pending, cancelled; rows
whose lower-cased status is not in the whitelist are dropped. -/
theorem claim_C5 (df : List Row) : ∀ r ∈ validate_data df,
    ∃ s, r.status = some s ∧ strLower s ∈ valid_status := by
  intro r hr
  unfold validate_data at hr
  have h1 := mem_dropBadStatus hr
  have hok := h1.2
  unfold statusOk at hok
  cases hs : r.status with
  | none => rw [hs] at hok; simp at hok
  | some s =>
    rw [hs] at hok
    exact ⟨s, rfl, by simpa using hok⟩

/-- C5 witness: the fully valid row is returned with a whitelisted
lower-cased status. -/
theorem claim_C5_witness :
    ∃ s, okRow.status = some s ∧ strLower s ∈ valid_status :=
  claim_C5 [okRow] okRow (by decide)

/-- C6: every row returned by transform_data carries total_order_value
equal to its quantity times its price_usd, and order_month equal to the
%Y-%m calendar-month string of its order_date. -/
theorem claim_C6 (df : List Row) : ∀ t ∈ transform_data df,
    (∃ q p, t.quantity = some q ∧ t.price_usd = some p
      ∧ t.total_order_value = some (q * p))
    ∧ ∀ d, t.order_date = some d → t.order_month = some (fmtMonth d) := by
  intro t ht
  unfold transform_data at ht
  obtain ⟨hmem, hp⟩ := List.mem_filter.mp ht
  obtain ⟨r, hr, rfl⟩ := List.mem_map.mp hmem
  rw [Bool.and_eq_true] at hp
  obtain ⟨hq1, hp1⟩ := hp
  cases hq : r.quantity with
  | none => simp [toTRow, hq] at hq1
  | some q =>
    cases hpr : r.price_usd with
    | none => simp [toTRow, hpr] at hp1
    | some p =>
      constructor
      · exact ⟨q, p, by simp [toTRow, hq], by simp [toTRow, hpr], by simp [toTRow, hq, hpr]⟩
      · intro d hd
        have hod : r.order_date = some d := by simpa [toTRow] using hd
        simp [toTRow, hod]

/-- C6 witness: the derived columns of the transformed valid row. -/
theorem claim_C6_witness :
    (∃ q p, (toTRow okRow).quantity = some q ∧ (toTRow okRow).price_usd = some p
      ∧ (toTRow okRow).total_order_value = some (q * p))
    ∧ ∀ d, (toTRow okRow).order_date = some d →
        (toTRow okRow).order_month = some (fmtMonth d) :=
  claim_C6 [okRow] (toTRow okRow) (by
    have h : transform_data [okRow] = [toTRow okRow] := rfl
    rw [h]
    exact List.mem_cons_self _ _)

/-- C2: whenever load_to_database returns normally the customer_orders
table holds exactly the frame passed in (if_exists = replace discards
earlier contents); two successive loads leave exactly the second frame,
so runs do not accumulate; and after loading an incrementally filtered
frame every stored row is dated strictly after the watermark. -/
theorem claim_C2 :
    (∀ (df : List FRow) (w : DbWorld),
      (load_to_database df w).result = Except.ok () →
      (load_to_database df w).world.customer_orders_table = some df)
    ∧ (∀ (df1 df2 : List FRow) (w : DbWorld),
      (load_to_database df2 (load_to_database df1 w).world).result = Except.ok () →
      (load_to_database df2 (load_to_database df1 w).world).world.customer_orders_table = some df2)
    ∧ (∀ (df : List FRow) (d : Date) (w : DbWorld) (r : FRow),
      (load_to_database (incremental_loading df (some d)) w).result = Except.ok () →
      r ∈ ((load_to_database (incremental_loading df (some d)) w).world.customer_orders_table).getD [] →
      ∃ od, r.order_date = some od ∧ Date.lt d od = true) := by
  have key : ∀ (df : List FRow) (w : DbWorld),
      (load_to_database df w).result = Except.ok () →
      (load_to_database df w).world.customer_orders_table = some df := by
    intro df w h
    obtain ⟨tbl, tf, cf⟩ := w
    cases tf with
    | some e => simp [load_to_database] at h
    | none =>
      cases cf with
      | some e => simp [load_to_database] at h
      | none => simp [load_to_database]
  refine ⟨key, ?_, ?_⟩
  · intro df1 df2 w h
    exact key df2 (load_to_database df1 w).world h
  · intro df d w r h hmem
    rw [key _ w h] at hmem
    simp only [Option.getD_some] at hmem
    unfold incremental_loading at hmem
    have hk := (List.mem_filter.mp hmem).2
    unfold keepAfter at hk
    cases hod : r.order_date with
    | none => rw [hod] at hk; simp at hk
    | some od => rw [hod] at hk; exact ⟨od, rfl, hk⟩

/-- C2 witness: a fault-free world, a row after the watermark. -/
theorem claim_C2_witness :
    (load_to_database [frAfter] dbw0).world.customer_orders_table = some [frAfter]
    ∧ (load_to_database [frBefore]
        (load_to_database [frAfter] dbw0).world).world.customer_orders_table = some [frBefore]
    ∧ (∃ od, frAfter.order_date = some od ∧ Date.lt last_run od = true) :=
  ⟨claim_C2.1 [frAfter] dbw0 rfl,
   claim_C2.2.1 [frAfter] [frBefore] dbw0 rfl,
   claim_C2.2.2 [frAfter] last_run dbw0 frAfter rfl (by decide)⟩

/-- C9: when the input CSV is missing, loading_data signals process exit
and the whole run changes nothing — no stage runs, no output is written;
when the file is present and parses, loading_data returns the parsed
table. -/
theorem claim_C9 (w : World) :
    (w.datasetCsv = none →
      loading_data w = Except.error () ∧ main_run w = (w, false))
    ∧ (∀ t, w.datasetCsv = some t → loading_data w = Except.ok t) := by
  obtain ⟨ds, dbw, csvw, pq⟩ := w
  constructor
  · intro h
    simp only at h
    subst h
    exact ⟨rfl, rfl⟩
  · intro t h
    simp only at h
    subst h
    rfl

/-- C9 witness: the missing-file world aborts untouched; the present-file
world loads its table. -/
theorem claim_C9_witness :
    (loading_data w9missing = Except.error () ∧ main_run w9missing = (w9missing, false))
    ∧ loading_data w9present = Except.ok [okRow] :=
  ⟨(claim_C9 w9missing).1 rfl, (claim_C9 w9present).2 [okRow] rfl⟩

/-- C10: a failing to_sql write, a failing COUNT verification, or a
failing to_csv write each make the function log the failure and re-raise
the same exception; a normal return is only possible when no such fault
occurred, so persistence failures are never swallowed. -/
theorem claim_C10 :
    (∀ (df : List FRow) (w : DbWorld) (e : String), w.toSqlFail = some e →
      (load_to_database df w).result = Except.error e
      ∧ dbFailMsg e ∈ (load_to_database df w).log)
    ∧ (∀ (df : List FRow) (w : DbWorld) (e : String),
      w.toSqlFail = none → w.countFail = some e →
      (load_to_database df w).result = Except.error e
      ∧ dbFailMsg e ∈ (load_to_database df w).log)
    ∧ (∀ (df : List FRow) (w : DbWorld),
      (load_to_database df w).result = Except.ok () →
      w.toSqlFail = none ∧ w.countFail = none)
    ∧ (∀ (df : List FRow) (w : CsvWorld) (e : String), w.writeFail = some e →
      (save_backup_csv df w).result = Except.error e
      ∧ csvFailMsg e ∈ (save_backup_csv df w).log)
    ∧ (∀ (df : List FRow) (w : CsvWorld),
      (save_backup_csv df w).result = Except.ok "processed_orders.csv" →
      w.writeFail = none) := by
  refine ⟨?_, ?_, ?_, ?_, ?_⟩
  · intro df w e h
    obtain ⟨tbl, tf, cf⟩ := w
    simp only at h
    subst h
    simp [load_to_database]
  · intro df w e h1 h2
    obtain ⟨tbl, tf, cf⟩ := w
    simp only at h1 h2
    subst h1; subst h2
    simp [load_to_database]
  · intro df w h
    obtain ⟨tbl, tf, cf⟩ := w
    cases tf with
    | some e => simp [load_to_database] at h
    | none =>
      cases cf with
      | some e => simp [load_to_database] at h
      | none => exact ⟨rfl, rfl⟩
  · intro df w e h
    obtain ⟨f, wf⟩ := w
    simp only at h
    subst h
    simp [save_backup_csv]
  · intro df w h
    obtain ⟨f, wf⟩ := w
    cases wf with
    | some e => simp [save_backup_csv] at h
    | none => rfl

/-- C10 witness: concrete faulty worlds for the three failure sites. -/
theorem claim_C10_witness :
    ((load_to_database [] dbwToSqlFail).result = Except.error "disk full"
      ∧ dbFailMsg "disk full" ∈ (load_to_database [] dbwToSqlFail).log)
    ∧ ((load_to_database [] dbwCountFail).result = Except.error "no such table"
      ∧ dbFailMsg "no such table" ∈ (load_to_database [] dbwCountFail).log)
    ∧ ((save_backup_csv [] csvwFail).result = Except.error "permission denied"
      ∧ csvFailMsg "permission denied" ∈ (save_backup_csv [] csvwFail).log) :=
  ⟨claim_C10.1 [] dbwToSqlFail "disk full" rfl,
   claim_C10.2.1 [] dbwCountFail "no such table" rfl rfl,
   claim_C10.2.2.2.1 [] csvwFail "permission denied" rfl⟩

theorem colIndex_mem (c : String) (l : List String) (h : c ∈ l) :
    ∃ j, colIndex l c = some j ∧ l.get? j = some c := by
  induction l with
  | nil => simp at h
  | cons a tl ih =>
    by_cases hac : a = c
    · exact ⟨0, by simp [colIndex, hac], by simp [hac]⟩
    · have hc : c ∈ tl := by
        rcases List.mem_cons.mp h with h1 | h1
        · exact absurd h1.symm hac
        · exact h1
      obtain ⟨j, hj1, hj2⟩ := ih hc
      exact ⟨j + 1, by simp [colIndex, hac, hj1], by simpa using hj2⟩

theorem cellAt_map_self (targets : List String) (f : String → Value) (c : String)
    (hc : c ∈ targets) : cellAt targets (targets.map f) c = some (f c) := by
  obtain ⟨j, hj1, hj2⟩ := colIndex_mem c targets hc
  unfold cellAt
  rw [hj1]
  simp only [Option.some_bind]
  rw [List.get?_map, hj2]
  rfl

theorem cellAt_isSome (cols : List String) (row : List Value) (c : String)
    (hc : c ∈ cols) (hw : row.length = cols.length) :
    ∃ v, cellAt cols row c = some v := by
  obtain ⟨j, hj1, hj2⟩ := colIndex_mem c cols hc
  have hjlen : j < cols.length := by
    by_contra hle
    rw [List.get?_eq_none.mpr (Nat.le_of_not_lt hle)] at hj2
    exact Option.noConfusion hj2
  have hrlen : j < row.length := hw ▸ hjlen
  unfold cellAt
  rw [hj1]
  simp only [Option.some_bind]
  cases hrow : row.get? j with
  | none =>
    rw [List.get?_eq_none] at hrow
    omega
  | some v => exact ⟨v, rfl⟩

/-- C7: on a frame carrying at least the ten target columns,
schema_enforcement returns a frame with exactly those columns in the
fixed order, the same number of rows, and with every retained column's
cell equal to the input's cell in the corresponding row. -/
theorem claim_C7 (df : DataFrame)
    (hwf : ∀ row ∈ df.rows, row.length = df.columns.length)
    (hcols : ∀ c ∈ customer_orders, c ∈ df.columns) :
    ∃ out, schema_enforcementDF df = some out
      ∧ out.columns = customer_orders
      ∧ out.rows.length = df.rows.length
      ∧ ∀ (i : Nat) (row orow : List Value) (c : String),
          df.rows.get? i = some row → out.rows.get? i = some orow →
          c ∈ customer_orders →
          cellAt customer_orders orow c = cellAt df.columns row c := by
  unfold schema_enforcementDF
  rw [if_pos hcols]
  refine ⟨_, rfl, rfl, by simp, ?_⟩
  intro i row orow c h1 h2 hc
  rw [List.get?_map, h1, Option.map_some'] at h2
  have horow : orow = customer_orders.map
      (fun c2 => (cellAt df.columns row c2).getD Value.null) :=
    (Option.some.injEq _ _ ▸ h2).symm
  subst horow
  rw [cellAt_map_self customer_orders _ c hc]
  obtain ⟨v, hv⟩ := cellAt_isSome df.columns row c (hcols c hc)
    (hwf row (List.get?_mem h1))
  rw [hv]
  simp

/-- C7 witness: an eleven-column frame (the ten target columns plus one
extra) with one row. -/
theorem claim_C7_witness :
    ∃ out, schema_enforcementDF dfW = some out
      ∧ out.columns = customer_orders
      ∧ out.rows.length = dfW.rows.length
      ∧ ∀ (i : Nat) (row orow : List Value) (c : String),
          dfW.rows.get? i = some row → out.rows.get? i = some orow →
          c ∈ customer_orders →
          cellAt customer_orders orow c = cellAt dfW.columns row c :=
  claim_C7 dfW (by decide) (by decide)

/-- C8 as stated is false: called without a cutoff, incremental_loading
returns the argument frame object itself — handle 0, which already
existed in the heap — rather than a new table. -/
theorem claim_C8_counterexample :
    (incremental_loading_heap hf0 0 none).2 = 0 ∧ 0 < hf0.next :=
  ⟨rfl, by decide⟩

/-- C8 amended: every stage leaves the frame passed to it unchanged (no
stage mutates its argument); validate_data, transform_data and
schema_enforcement always return a freshly allocated frame holding the
stage's result, as does incremental_loading when a cutoff date is
provided; incremental_loading without a cutoff returns the argument
frame itself, unmutated, rather than a new table. -/
theorem claim_C8 (hr : Heap Row) (ht : Heap TRow) (hf : Heap FRow) (i j k : Nat) (d : Date)
    (hi : i < hr.next) (hk : k < hf.next) :
    ((validate_data_heap hr i).1.mem i = hr.mem i
      ∧ (validate_data_heap hr i).1.mem (validate_data_heap hr i).2 = validate_data (hr.mem i)
      ∧ i < (validate_data_heap hr i).2)
    ∧ ((transform_data_heap hr ht i).1 = hr
      ∧ (transform_data_heap hr ht i).2.1.mem (transform_data_heap hr ht i).2.2
          = transform_data (hr.mem i)
      ∧ (transform_data_heap hr ht i).2.2 = ht.next)
    ∧ ((schema_enforcement_heap ht hf j).1 = ht
      ∧ (schema_enforcement_heap ht hf j).2.1.mem (schema_enforcement_heap ht hf j).2.2
          = schema_enforcement (ht.mem j)
      ∧ (schema_enforcement_heap ht hf j).2.2 = hf.next)
    ∧ ((incremental_loading_heap hf k (some d)).1.mem k = hf.mem k
      ∧ (incremental_loading_heap hf k (some d)).1.mem (incremental_loading_heap hf k (some d)).2
          = incremental_loading (hf.mem k) (some d)
      ∧ k < (incremental_loading_heap hf k (some d)).2)
    ∧ incremental_loading_heap hf k none = (hf, k) := by
  refine ⟨⟨?_, ?_, ?_⟩, ⟨rfl, ?_, rfl⟩, ⟨rfl, ?_, rfl⟩, ⟨?_, ?_, ?_⟩, rfl⟩
  · simp only [validate_data_heap, Heap.alloc]
    rw [if_neg (by omega), if_neg (by omega), if_neg (by omega),
      if_neg (by omega), if_neg (by omega), if_neg (by omega)]
  · simp [validate_data_heap, Heap.alloc, validate_data]
  · simp only [validate_data_heap, Heap.alloc]
    omega
  · simp only [transform_data_heap, Heap.alloc, Heap.write]
    simp only [eq_self_iff_true, if_true]
    rw [List.map_map, List.map_map, List.map_map, List.map_map]
    have hfun : ((((coerceNums ∘ setMonth) ∘ setDatetime) ∘ setTotal) ∘ initTRow) = toTRow :=
      funext (fun r => rfl)
    rw [hfun]
    rfl
  · simp [schema_enforcement_heap, Heap.alloc, schema_enforcement]
  · simp only [incremental_loading_heap, Heap.alloc]
    rw [if_neg (by omega)]
  · simp [incremental_loading_heap, Heap.alloc, incremental_loading]
  · simp only [incremental_loading_heap, Heap.alloc]
    omega

/-- C8 witness: a live one-frame heap for each stage. -/
theorem claim_C8_witness :
    (validate_data_heap hr0 0).1.mem 0 = hr0.mem 0
    ∧ (transform_data_heap hr0 ht0 0).1 = hr0
    ∧ (schema_enforcement_heap ht0 hf0 0).1 = ht0
    ∧ (incremental_loading_heap hf0 0 (some last_run)).1.mem 0 = hf0.mem 0
    ∧ incremental_loading_heap hf0 0 none = (hf0, 0) :=
  ⟨(claim_C8 hr0 ht0 hf0 0 0 0 last_run (by decide) (by decide)).1.1,
   (claim_C8 hr0 ht0 hf0 0 0 0 last_run (by decide) (by decide)).2.1.1,
   (claim_C8 hr0 ht0 hf0 0 0 0 last_run (by decide) (by decide)).2.2.1.1,
   (claim_C8 hr0 ht0 hf0 0 0 0 last_run (by decide) (by decide)).2.2.2.1.1,
   (claim_C8 hr0 ht0 hf0 0 0 0 last_run (by decide) (by decide)).2.2.2.2⟩

end ETL


